import Mathlib

/-!
Shallow embedding of the SP connection pipe layer (conn.go of package sp):
length-prefixed message framing over a reliable byte stream, and the fixed
8-byte SP handshake.  The underlying net.Conn byte stream is modelled
explicitly: bytes read come from an input list, bytes written go to an
output list, and transport failures are injected as explicit error values.
-/

/-- A byte on the wire, modelled as a natural number (wire values are below 256). -/
abbrev Byte := Nat

instance {ε α : Type} [DecidableEq ε] [DecidableEq α] : DecidableEq (Except ε α) := fun a b =>
  match a, b with
  | .error e, .error f =>
    if h : e = f then isTrue (by rw [h]) else isFalse (fun hh => by cases hh; exact h rfl)
  | .error _, .ok _ => isFalse (fun hh => by cases hh)
  | .ok _, .error _ => isFalse (fun hh => by cases hh)
  | .ok x, .ok y =>
    if h : x = y then isTrue (by rw [h]) else isFalse (fun hh => by cases hh; exact h rfl)

/-- Errors of the sp package.  `ErrTooLong`, `ErrBadHeader` and
`ErrBadVersion` are the protocol-level sentinel errors; `IOError c` stands
for an arbitrary transport error with identity `c`, which this layer
propagates verbatim. -/
inductive SPError where
  | ErrTooLong
  | ErrBadHeader
  | ErrBadVersion
  | IOError (code : Nat)
deriving DecidableEq, Repr

/-- A message as exchanged on a pipe: caller-defined header bytes and body bytes. -/
structure Message where
  Header : List Byte
  Body : List Byte
deriving DecidableEq, Repr

/-- Big-endian encoding of a 64-bit unsigned value into 8 bytes, as
`binary.Write` with `binary.BigEndian` produces for a `uint64` (matching the
package helper `putUint64`).  The divisors are 2^56, 2^48, 2^40, 2^32, 2^24,
2^16, 2^8 written as decimal literals. -/
def putUint64 (n : Nat) : List Byte :=
  [n / 72057594037927936 % 256, n / 281474976710656 % 256,
   n / 1099511627776 % 256, n / 4294967296 % 256,
   n / 16777216 % 256, n / 65536 % 256, n / 256 % 256, n % 256]

/-- Big-endian decoding of a byte sequence into an unsigned value, as
`binary.Read` with `binary.BigEndian` assembles the 8 bytes of a 64-bit
field. -/
def getUint64 (bs : List Byte) : Nat :=
  bs.foldl (fun a b => a * 256 + b) 0

/-- Reinterpretation of an unsigned 64-bit value as a signed int64
(two-sided complement), as `binary.Read` into an `int64` variable does.
The literals are 2^63 and 2^64. -/
def toInt64 (n : Nat) : Int :=
  if n < 9223372036854775808 then (n : Int) else (n : Int) - 18446744073709551616

/-- The pipe state retained by the `conn` structure of conn.go: remote and
local protocol numbers and the open flag.  The `net.Conn` handle is modelled
as explicit byte lists on each operation, and the two mutexes carry no
functional content in a sequential model. -/
structure conn where
  rproto : Nat
  lproto : Nat
  opened : Bool
deriving DecidableEq, Repr

/-- Outcome of `conn.Recv`: the returned message or error, the unread
remainder of the input stream, and whether `Recv` closed the underlying
stream. -/
structure RecvResult where
  result : Except SPError Message
  rest : List Byte
  closed : Bool
deriving DecidableEq, Repr

/-- The `Recv` method of conn.go, as a function of the bytes available on the
underlying stream.  It reads a big-endian 64-bit size into a signed int64
(fewer than 8 bytes available models a transport I/O error, returned as-is
without closing), rejects sizes above 1024*1024 or negative by closing the
stream and returning `ErrTooLong`, then reads exactly `sz` bytes fully as
the body of a header-less message (a short read is again a transport error,
returned as-is). -/
def conn.Recv (input : List Byte) : RecvResult :=
  if input.length < 8 then
    ⟨Except.error (SPError.IOError 0), input, false⟩
  else
    let sz : Int := toInt64 (getUint64 (input.take 8))
    let rest := input.drop 8
    if 1024 * 1024 < sz ∨ sz < 0 then
      ⟨Except.error SPError.ErrTooLong, rest, true⟩
    else if rest.length < sz.toNat then
      ⟨Except.error (SPError.IOError 0), rest, false⟩
    else
      ⟨Except.ok ⟨[], rest.take sz.toNat⟩, rest.drop sz.toNat, false⟩

/-- Outcome of `conn.Send`: the error returned (if any) and the bytes that
reached the stream before the send completed or aborted. -/
structure SendResult where
  result : Except SPError Unit
  written : List Byte
deriving DecidableEq, Repr

/-- The `Send` method of conn.go.  It writes the combined header+body length
as a big-endian unsigned 64-bit value, then the header bytes, then the body
bytes.  Each of the three writes may fail with an injected transport error
(`e1`, `e2`, `e3`); a failure aborts the send at that step and returns the
error. -/
def conn.Send (msg : Message) (e1 e2 e3 : Option SPError) : SendResult :=
  match e1 with
  | some e => ⟨Except.error e, []⟩
  | none =>
    match e2 with
    | some e => ⟨Except.error e, putUint64 (msg.Header.length + msg.Body.length)⟩
    | none =>
      match e3 with
      | some e =>
        ⟨Except.error e, putUint64 (msg.Header.length + msg.Body.length) ++ msg.Header⟩
      | none =>
        ⟨Except.ok (),
          putUint64 (msg.Header.length + msg.Body.length) ++ msg.Header ++ msg.Body⟩

/-- The `LocalProtocol` method of conn.go. -/
def conn.LocalProtocol (p : conn) : Nat := p.lproto

/-- The `RemoteProtocol` method of conn.go. -/
def conn.RemoteProtocol (p : conn) : Nat := p.rproto

/-- The `Close` method of conn.go: clears the open flag and closes the
underlying stream.  The second component records that the stream close was
invoked. -/
def conn.Close (p : conn) : conn × Bool :=
  ({ p with opened := false }, true)

/-- The `IsOpen` method of conn.go. -/
def conn.IsOpen (p : conn) : Bool := p.opened

/-- The `connHeader` structure of conn.go, exchanged during the initial
handshake.  `Proto` and `Rsvd` are 16-bit fields. -/
structure connHeader where
  Zero : Byte
  S : Byte
  P : Byte
  Version : Byte
  Proto : Nat
  Rsvd : Nat
deriving DecidableEq, Repr

/-- Big-endian wire encoding of a `connHeader`, as `binary.Write` with
`binary.BigEndian` lays out the struct: four single bytes, then `Proto` and
`Rsvd` as 16-bit big-endian fields. -/
def connHeader.encode (h : connHeader) : List Byte :=
  [h.Zero % 256, h.S % 256, h.P % 256, h.Version % 256,
   h.Proto / 256 % 256, h.Proto % 256, h.Rsvd / 256 % 256, h.Rsvd % 256]

/-- Big-endian wire decoding of an 8-byte sequence into a `connHeader`, as
`binary.Read` with `binary.BigEndian` fills the struct. -/
def connHeader.decode (bs : List Byte) : connHeader :=
  ⟨bs.getD 0 0, bs.getD 1 0, bs.getD 2 0, bs.getD 3 0,
   bs.getD 4 0 * 256 + bs.getD 5 0, bs.getD 6 0 * 256 + bs.getD 7 0⟩

/-- Outcome of `conn.handshake`: the returned error (if any), the pipe state
afterwards, whether the handshake closed the underlying stream, and the
header bytes it wrote to the stream. -/
structure HSResult where
  result : Except SPError Unit
  state : conn
  closed : Bool
  sent : List Byte
deriving DecidableEq, Repr

/-- The `handshake` method of conn.go.  It writes the local 8-byte header
(83 and 80 are the magic bytes of the characters S and P); a write failure
(`writeErr`) returns the error without closing.  It then reads the peer
header: an injected read failure (`readErr`) or fewer than 8 peer bytes
closes the stream and returns the error.  It then checks the reserved and
magic bytes (closing with `ErrBadHeader` on mismatch), then the version
byte (closing with `ErrBadVersion` if nonzero), and on success stores the
peer protocol number and marks the pipe open. -/
def conn.handshake (p : conn) (writeErr readErr : Option SPError)
    (peer : List Byte) : HSResult :=
  match writeErr with
  | some e => ⟨Except.error e, p, false, []⟩
  | none =>
    let sent := connHeader.encode ⟨0, 83, 80, 0, p.lproto, 0⟩
    match readErr with
    | some e => ⟨Except.error e, p, true, sent⟩
    | none =>
      if peer.length < 8 then
        ⟨Except.error (SPError.IOError 0), p, true, sent⟩
      else
        let h := connHeader.decode (peer.take 8)
        if h.Zero ≠ 0 ∨ h.S ≠ 83 ∨ h.P ≠ 80 ∨ h.Rsvd ≠ 0 then
          ⟨Except.error SPError.ErrBadHeader, p, true, sent⟩
        else if h.Version ≠ 0 then
          ⟨Except.error SPError.ErrBadVersion, p, true, sent⟩
        else
          ⟨Except.ok (), { p with rproto := h.Proto, opened := true }, false, sent⟩

/-- The `NewConnPipe` constructor of conn.go: builds the zero-initialized
pipe state with the supplied local protocol number, runs the handshake, and
returns the pipe only when the handshake succeeds. -/
def NewConnPipe (lproto : Nat) (writeErr readErr : Option SPError)
    (peer : List Byte) : Except SPError conn :=
  match (conn.handshake ⟨0, lproto, false⟩ writeErr readErr peer).result with
  | Except.error e => Except.error e
  | Except.ok _ => Except.ok (conn.handshake ⟨0, lproto, false⟩ writeErr readErr peer).state

theorem putUint64_length (n : Nat) : (putUint64 n).length = 8 := rfl

theorem getUint64_putUint64 (n : Nat) (h : n < 18446744073709551616) :
    getUint64 (putUint64 n) = n := by
  simp only [getUint64, putUint64, List.foldl]
  omega

theorem take8_frame (n : Nat) (tail : List Byte) :
    (putUint64 n ++ tail).take 8 = putUint64 n := by
  have h8 : (putUint64 n).length = 8 := rfl
  rw [← h8]; exact List.take_left _ _

theorem drop8_frame (n : Nat) (tail : List Byte) :
    (putUint64 n ++ tail).drop 8 = tail := by
  have h8 : (putUint64 n).length = 8 := rfl
  rw [← h8]; exact List.drop_left _ _

theorem frame_length (n : Nat) (tail : List Byte) :
    (putUint64 n ++ tail).length = 8 + tail.length := by
  simp [putUint64]; omega

theorem toInt64_reject_iff (n : Nat) (hn : n < 18446744073709551616) :
    (1024 * 1024 < toInt64 n ∨ toInt64 n < 0) ↔ 1048576 < n := by
  unfold toInt64; split_ifs <;> omega

theorem recv_ok_rest (n : Nat) (tail : List Byte) (hb : n ≤ 1048576)
    (hge : n ≤ tail.length) :
    conn.Recv (putUint64 n ++ tail) =
      ⟨Except.ok ⟨[], tail.take n⟩, tail.drop n, false⟩ := by
  have hget : getUint64 ((putUint64 n ++ tail).take 8) = n := by
    rw [take8_frame]; exact getUint64_putUint64 n (by omega)
  have hti : toInt64 n = (n : Int) := by unfold toInt64; rw [if_pos (by omega)]
  simp only [conn.Recv, frame_length, hget, drop8_frame, hti]
  rw [if_neg (by omega), if_neg (by omega), if_neg (by simp; omega)]
  simp

theorem recv_short (n : Nat) (tail : List Byte) (hb : n ≤ 1048576)
    (hlt : tail.length < n) :
    conn.Recv (putUint64 n ++ tail) =
      ⟨Except.error (SPError.IOError 0), tail, false⟩ := by
  have hget : getUint64 ((putUint64 n ++ tail).take 8) = n := by
    rw [take8_frame]; exact getUint64_putUint64 n (by omega)
  have hti : toInt64 n = (n : Int) := by unfold toInt64; rw [if_pos (by omega)]
  simp only [conn.Recv, frame_length, hget, drop8_frame, hti]
  rw [if_neg (by omega), if_neg (by omega), if_pos (by simp; omega)]

theorem recv_reject (n : Nat) (tail : List Byte) (hb : 1048576 < n)
    (hn : n < 18446744073709551616) :
    conn.Recv (putUint64 n ++ tail) =
      ⟨Except.error SPError.ErrTooLong, tail, true⟩ := by
  have hget : getUint64 ((putUint64 n ++ tail).take 8) = n := by
    rw [take8_frame]; exact getUint64_putUint64 n hn
  simp only [conn.Recv, frame_length, hget, drop8_frame]
  rw [if_neg (by omega), if_pos ((toInt64_reject_iff n hn).mpr hb)]

theorem send_written (H B : List Byte) :
    (conn.Send ⟨H, B⟩ none none none).written =
      putUint64 (H.length + B.length) ++ (H ++ B) := by
  simp [conn.Send, List.append_assoc]

example : conn.Recv (putUint64 3 ++ [10, 20, 30, 40]) =
    ⟨Except.ok ⟨[], [10, 20, 30]⟩, [40], false⟩ := by decide

example : (conn.Send ⟨[1, 2], [3]⟩ none none none).written =
    [0, 0, 0, 0, 0, 0, 0, 3, 1, 2, 3] := by decide

example : (conn.handshake ⟨0, 258, false⟩ none none [0, 83, 80, 0, 1, 7, 0, 0]).state =
    ⟨263, 258, true⟩ := by decide

/-- C1: Round-trip framing: for every header byte sequence H and body byte
sequence B with total length at most 1048576, Send of the message (H, B)
followed by Recv on the produced bytes returns a message whose Body is the
concatenation H ++ B and whose Header is empty, consuming the whole frame
and not closing the stream. -/
theorem send_recv_roundtrip (H B : List Byte) (h : H.length + B.length ≤ 1048576) :
    conn.Recv (conn.Send ⟨H, B⟩ none none none).written =
      ⟨Except.ok ⟨[], H ++ B⟩, [], false⟩ := by
  rw [send_written]
  have hlen : (H ++ B).length = H.length + B.length := by simp
  have := recv_ok_rest (H.length + B.length) (H ++ B) h (by omega)
  rw [this, ← hlen, List.take_length, List.drop_length]

/-- Witness for C1 at H = [1, 2], B = [3]. -/
theorem send_recv_roundtrip_witness :
    ([1, 2] : List Byte).length + ([3] : List Byte).length ≤ 1048576 ∧
    conn.Recv (conn.Send ⟨[1, 2], [3]⟩ none none none).written =
      ⟨Except.ok ⟨[], [1, 2] ++ [3]⟩, [], false⟩ :=
  ⟨by decide, send_recv_roundtrip [1, 2] [3] (by decide)⟩

/-- C2: Length bound enforcement in Recv: for every decoded 64-bit length L,
Recv fails with ErrTooLong exactly when L interpreted as a signed int64
exceeds 1048576 or is negative, and it closes the underlying stream exactly
in that same case; a declared length of exactly 1048576 (with a full body
available) is accepted, and 1048577 is rejected. -/
theorem recv_length_bound (L : Nat) (rest : List Byte)
    (hL : L < 18446744073709551616) :
    ((conn.Recv (putUint64 L ++ rest)).result = Except.error SPError.ErrTooLong ↔
      1024 * 1024 < toInt64 L ∨ toInt64 L < 0) ∧
    ((conn.Recv (putUint64 L ++ rest)).closed = true ↔
      1024 * 1024 < toInt64 L ∨ toInt64 L < 0) ∧
    (L = 1048576 → rest.length = L →
      (conn.Recv (putUint64 L ++ rest)).result = Except.ok ⟨[], rest⟩) ∧
    (L = 1048577 →
      (conn.Recv (putUint64 L ++ rest)).result = Except.error SPError.ErrTooLong) := by
  rw [toInt64_reject_iff L hL]
  by_cases hc : 1048576 < L
  · rw [recv_reject L rest hc hL]
    refine ⟨by simp [hc], by simp [hc], fun hL1 => by omega, fun _ => rfl⟩
  · have hb : L ≤ 1048576 := by omega
    by_cases hr : rest.length < L
    · rw [recv_short L rest hb hr]
      refine ⟨by simp; omega, by simp; omega, fun hL1 hr1 => by omega, fun hL1 => by omega⟩
    · rw [recv_ok_rest L rest hb (by omega)]
      refine ⟨by simp; omega, by simp; omega, ?_, fun hL1 => by omega⟩
      intro hL1 hr1
      rw [← hr1, List.take_length]

/-- Witness for C2 at L = 1048577 with an empty remainder. -/
theorem recv_length_bound_witness :
    (1048577 : Nat) < 18446744073709551616 ∧
    (((conn.Recv (putUint64 1048577 ++ [])).result = Except.error SPError.ErrTooLong ↔
      1024 * 1024 < toInt64 1048577 ∨ toInt64 1048577 < 0) ∧
    ((conn.Recv (putUint64 1048577 ++ [])).closed = true ↔
      1024 * 1024 < toInt64 1048577 ∨ toInt64 1048577 < 0) ∧
    (1048577 = 1048576 → ([] : List Byte).length = 1048577 →
      (conn.Recv (putUint64 1048577 ++ [])).result = Except.ok ⟨[], []⟩) ∧
    (1048577 = 1048577 →
      (conn.Recv (putUint64 1048577 ++ [])).result = Except.error SPError.ErrTooLong)) :=
  ⟨by decide, recv_length_bound 1048577 [] (by decide)⟩

/-- C10: Send enforces no length bound: a message whose combined
header+body length exceeds 1048576 is sent without error, and a conforming
receiver (conn.Recv) rejects the resulting frame with ErrTooLong, closing
the stream. -/
theorem send_unbounded (H B : List Byte) (h1 : 1048576 < H.length + B.length)
    (h2 : H.length + B.length < 18446744073709551616) :
    (conn.Send ⟨H, B⟩ none none none).result = Except.ok () ∧
    conn.Recv (conn.Send ⟨H, B⟩ none none none).written =
      ⟨Except.error SPError.ErrTooLong, H ++ B, true⟩ := by
  refine ⟨rfl, ?_⟩
  rw [send_written]
  exact recv_reject _ _ h1 h2

/-- Witness for C10 at a message of 1048577 header bytes and no body bytes. -/
theorem send_unbounded_witness :
    1048576 < (List.replicate 1048577 (0 : Byte)).length + ([] : List Byte).length ∧
    (List.replicate 1048577 (0 : Byte)).length + ([] : List Byte).length <
      18446744073709551616 ∧
    ((conn.Send ⟨List.replicate 1048577 (0 : Byte), []⟩ none none none).result =
        Except.ok () ∧
      conn.Recv (conn.Send ⟨List.replicate 1048577 (0 : Byte), []⟩ none none none).written =
        ⟨Except.error SPError.ErrTooLong, List.replicate 1048577 (0 : Byte) ++ [], true⟩) :=
  ⟨by rw [List.length_replicate, List.length_nil]; omega,
    by rw [List.length_replicate, List.length_nil]; omega,
    send_unbounded (List.replicate 1048577 0) []
      (by rw [List.length_replicate, List.length_nil]; omega)
      (by rw [List.length_replicate, List.length_nil]; omega)⟩

theorem handshake_ok_state (p : conn) (we re : Option SPError) (peer : List Byte)
    (h : (conn.handshake p we re peer).result = Except.ok ()) :
    (conn.handshake p we re peer).state =
      { p with rproto := (connHeader.decode (peer.take 8)).Proto, opened := true } := by
  cases we with
  | some e => exact absurd h (by simp [conn.handshake])
  | none =>
    cases re with
    | some e => exact absurd h (by simp [conn.handshake])
    | none =>
      by_cases h8 : peer.length < 8
      · exact absurd h (by simp [conn.handshake, h8])
      · simp only [conn.handshake, if_neg h8] at h ⊢
        split_ifs at h ⊢
        rfl

/-- C3: Handshake validation order and errors: with the 8-byte peer header
decoded, a nonzero first reserved byte, a magic byte differing from 83 or
80 (S or P), or a nonzero reserved trailer makes the handshake close the
connection and fail with ErrBadHeader; when all of those checks pass and
the version byte is nonzero, it closes the connection and fails with
ErrBadVersion, so the reserved and magic checks run before the version
check. -/
theorem handshake_validation (p : conn) (peer : List Byte) (h8 : 8 ≤ peer.length) :
    (((connHeader.decode (peer.take 8)).Zero ≠ 0 ∨
      (connHeader.decode (peer.take 8)).S ≠ 83 ∨
      (connHeader.decode (peer.take 8)).P ≠ 80 ∨
      (connHeader.decode (peer.take 8)).Rsvd ≠ 0) →
      (conn.handshake p none none peer).result = Except.error SPError.ErrBadHeader ∧
      (conn.handshake p none none peer).closed = true) ∧
    (((connHeader.decode (peer.take 8)).Zero = 0 ∧
      (connHeader.decode (peer.take 8)).S = 83 ∧
      (connHeader.decode (peer.take 8)).P = 80 ∧
      (connHeader.decode (peer.take 8)).Rsvd = 0) →
      (connHeader.decode (peer.take 8)).Version ≠ 0 →
      (conn.handshake p none none peer).result = Except.error SPError.ErrBadVersion ∧
      (conn.handshake p none none peer).closed = true) := by
  simp only [conn.handshake, if_neg (by omega : ¬peer.length < 8)]
  constructor
  · intro hbad
    rw [if_pos hbad]
    exact ⟨rfl, rfl⟩
  · intro hgood hver
    rw [if_neg (by push_neg; exact ⟨hgood.1, hgood.2.1, hgood.2.2.1, hgood.2.2.2⟩),
      if_pos hver]
    exact ⟨rfl, rfl⟩

/-- Witness for C3 at a peer header with bad magic byte 88 (X) and, for the
vacuous second conjunct, version 0. -/
theorem handshake_validation_witness :
    8 ≤ ([0, 88, 80, 0, 0, 9, 0, 0] : List Byte).length ∧
    ((((connHeader.decode (([0, 88, 80, 0, 0, 9, 0, 0] : List Byte).take 8)).Zero ≠ 0 ∨
      (connHeader.decode (([0, 88, 80, 0, 0, 9, 0, 0] : List Byte).take 8)).S ≠ 83 ∨
      (connHeader.decode (([0, 88, 80, 0, 0, 9, 0, 0] : List Byte).take 8)).P ≠ 80 ∨
      (connHeader.decode (([0, 88, 80, 0, 0, 9, 0, 0] : List Byte).take 8)).Rsvd ≠ 0) →
      (conn.handshake ⟨0, 5, false⟩ none none [0, 88, 80, 0, 0, 9, 0, 0]).result =
        Except.error SPError.ErrBadHeader ∧
      (conn.handshake ⟨0, 5, false⟩ none none [0, 88, 80, 0, 0, 9, 0, 0]).closed = true) ∧
    (((connHeader.decode (([0, 88, 80, 0, 0, 9, 0, 0] : List Byte).take 8)).Zero = 0 ∧
      (connHeader.decode (([0, 88, 80, 0, 0, 9, 0, 0] : List Byte).take 8)).S = 83 ∧
      (connHeader.decode (([0, 88, 80, 0, 0, 9, 0, 0] : List Byte).take 8)).P = 80 ∧
      (connHeader.decode (([0, 88, 80, 0, 0, 9, 0, 0] : List Byte).take 8)).Rsvd = 0) →
      (connHeader.decode (([0, 88, 80, 0, 0, 9, 0, 0] : List Byte).take 8)).Version ≠ 0 →
      (conn.handshake ⟨0, 5, false⟩ none none [0, 88, 80, 0, 0, 9, 0, 0]).result =
        Except.error SPError.ErrBadVersion ∧
      (conn.handshake ⟨0, 5, false⟩ none none [0, 88, 80, 0, 0, 9, 0, 0]).closed = true)) :=
  ⟨by decide, handshake_validation ⟨0, 5, false⟩ [0, 88, 80, 0, 0, 9, 0, 0] (by decide)⟩

/-- C4 counterexample: an I/O error injected into the handshake write is
returned, but the underlying stream is not closed, refuting the claim that
every handshake I/O error (write included) closes the stream. -/
theorem handshake_write_error_counterexample :
    (conn.handshake ⟨0, 1, false⟩ (some (SPError.IOError 7)) none []).result =
      Except.error (SPError.IOError 7) ∧
    (conn.handshake ⟨0, 1, false⟩ (some (SPError.IOError 7)) none []).closed = false :=
  ⟨rfl, rfl⟩

/-- C4 (amended): an I/O error during the handshake read closes the
underlying stream and is returned unchanged; an I/O error during the
handshake write is returned unchanged but does not close the stream. -/
theorem handshake_io_error (p : conn) (e : SPError) (peer : List Byte) :
    ((conn.handshake p none (some e) peer).result = Except.error e ∧
     (conn.handshake p none (some e) peer).closed = true) ∧
    ((conn.handshake p (some e) none peer).result = Except.error e ∧
     (conn.handshake p (some e) none peer).closed = false) :=
  ⟨⟨rfl, rfl⟩, ⟨rfl, rfl⟩⟩

/-- C5: NewConnPipe returns a pipe exactly when the handshake succeeds, and
on success the returned pipe reports the constructor argument as its local
protocol, the decoded peer protocol number as its remote protocol, and is
marked open. -/
theorem newConnPipe_spec (lproto : Nat) (we re : Option SPError) (peer : List Byte) :
    ((∃ s, NewConnPipe lproto we re peer = Except.ok s) ↔
      (conn.handshake ⟨0, lproto, false⟩ we re peer).result = Except.ok ()) ∧
    (∀ s, NewConnPipe lproto we re peer = Except.ok s →
      conn.LocalProtocol s = lproto ∧
      conn.RemoteProtocol s = (connHeader.decode (peer.take 8)).Proto ∧
      conn.IsOpen s = true) := by
  constructor
  · constructor
    · rintro ⟨s, hs⟩
      unfold NewConnPipe at hs
      split at hs
      · exact absurd hs (by simp)
      · next u heq => cases u; exact heq
    · intro hok
      refine ⟨(conn.handshake ⟨0, lproto, false⟩ we re peer).state, ?_⟩
      unfold NewConnPipe
      rw [hok]
  · intro s hs
    unfold NewConnPipe at hs
    split at hs
    · exact absurd hs (by simp)
    · next u heq =>
      cases u
      have hstate := handshake_ok_state ⟨0, lproto, false⟩ we re peer heq
      have hs2 : (conn.handshake ⟨0, lproto, false⟩ we re peer).state = s := by
        injection hs
      rw [← hs2, hstate]
      exact ⟨rfl, rfl, rfl⟩

/-- Witness for C5 at a successful handshake with local protocol 7 and peer
protocol 9. -/
theorem newConnPipe_spec_witness :
    ((∃ s, NewConnPipe 7 none none [0, 83, 80, 0, 0, 9, 0, 0] = Except.ok s) ↔
      (conn.handshake ⟨0, 7, false⟩ none none [0, 83, 80, 0, 0, 9, 0, 0]).result =
        Except.ok ()) ∧
    (∀ s, NewConnPipe 7 none none [0, 83, 80, 0, 0, 9, 0, 0] = Except.ok s →
      conn.LocalProtocol s = 7 ∧
      conn.RemoteProtocol s =
        (connHeader.decode (([0, 83, 80, 0, 0, 9, 0, 0] : List Byte).take 8)).Proto ∧
      conn.IsOpen s = true) :=
  newConnPipe_spec 7 none none [0, 83, 80, 0, 0, 9, 0, 0]

/-- C6: Send writes the combined length of header and body as a big-endian
unsigned 64-bit value, then the header bytes, then the body bytes, in that
order; an I/O error injected at any of the three writes aborts the send
right there and is returned, leaving exactly the bytes of the completed
earlier steps on the stream. -/
theorem send_wire_format (msg : Message) (e : SPError) :
    ((conn.Send msg none none none).result = Except.ok () ∧
     (conn.Send msg none none none).written =
       putUint64 (msg.Header.length + msg.Body.length) ++ msg.Header ++ msg.Body) ∧
    ((conn.Send msg (some e) none none).result = Except.error e ∧
     (conn.Send msg (some e) none none).written = []) ∧
    ((conn.Send msg none (some e) none).result = Except.error e ∧
     (conn.Send msg none (some e) none).written =
       putUint64 (msg.Header.length + msg.Body.length)) ∧
    ((conn.Send msg none none (some e)).result = Except.error e ∧
     (conn.Send msg none none (some e)).written =
       putUint64 (msg.Header.length + msg.Body.length) ++ msg.Header) :=
  ⟨⟨rfl, rfl⟩, ⟨rfl, rfl⟩, ⟨rfl, rfl⟩, ⟨rfl, rfl⟩⟩

/-- C7: the handshake sends exactly 8 bytes: a zero reserved byte, the
magic bytes 83 and 80 (S and P), a zero version byte, the local 16-bit
protocol number in big-endian order, and two zero reserved bytes. -/
theorem handshake_header_encoding (p : conn) (peer : List Byte)
    (hp : p.lproto < 65536) :
    (conn.handshake p none none peer).sent =
      [0, 83, 80, 0, p.lproto / 256, p.lproto % 256, 0, 0] ∧
    (conn.handshake p none none peer).sent.length = 8 := by
  have hsent : (conn.handshake p none none peer).sent =
      connHeader.encode ⟨0, 83, 80, 0, p.lproto, 0⟩ := by
    simp only [conn.handshake]
    split_ifs <;> rfl
  rw [hsent]
  have h1 : p.lproto / 256 % 256 = p.lproto / 256 := Nat.mod_eq_of_lt (by omega)
  refine ⟨?_, rfl⟩
  simp [connHeader.encode, h1]

/-- Witness for C7 at local protocol 258, encoded big-endian as bytes 1
and 2. -/
theorem handshake_header_encoding_witness :
    (258 : Nat) < 65536 ∧
    ((conn.handshake ⟨0, 258, false⟩ none none []).sent =
      [0, 83, 80, 0, 258 / 256, 258 % 256, 0, 0] ∧
    (conn.handshake ⟨0, 258, false⟩ none none []).sent.length = 8) :=
  ⟨by decide, handshake_header_encoding ⟨0, 258, false⟩ [] (by decide)⟩

/-- C8: Close marks the pipe not open, so IsOpen afterwards returns false,
and invokes the underlying stream close; a repeated Close again re-marks
the pipe closed and again delegates to the stream close. -/
theorem close_spec (p : conn) :
    conn.IsOpen (conn.Close p).1 = false ∧ (conn.Close p).2 = true ∧
    conn.IsOpen (conn.Close (conn.Close p).1).1 = false ∧
    (conn.Close (conn.Close p).1).2 = true :=
  ⟨rfl, rfl, rfl, rfl⟩
